import Mathlib

/- Shallow embedding of the prosodic scoring engine of this repository
   (app/services/vocal_feedback.py and app/services/vocal_analysis.py).
   Python floats are modelled as exact rationals, Python None as Option.
   Each definition's doc comment names the Python function it embeds. -/

/-- Python's built-in round (banker's rounding, half to even) on a rational. -/
def pyRound (q : ℚ) : ℤ :=
  if q - (⌊q⌋ : ℚ) < 1/2 then ⌊q⌋
  else if (1 : ℚ)/2 < q - (⌊q⌋ : ℚ) then ⌊q⌋ + 1
  else if Even ⌊q⌋ then ⌊q⌋ else ⌊q⌋ + 1

/-- Python's int() conversion (truncation toward zero) on a rational. -/
def pyInt (q : ℚ) : ℤ := if 0 ≤ q then ⌊q⌋ else -⌊-q⌋

/-- The helper clamp from vocal_feedback.py: int(max(lo, min(hi, round(x)))). -/
def clamp_int (x : ℚ) (lo hi : ℤ) : ℤ := max lo (min hi (pyRound x))

/-- Python's round(x, 2) used when reporting rounded values. -/
def round2 (q : ℚ) : ℚ := (pyRound (q * 100) : ℚ) / 100

/-- Insertion into a sorted rational list (helper for sorting). -/
def insertQ (x : ℚ) : List ℚ → List ℚ
  | [] => [x]
  | y :: ys => if x ≤ y then x :: y :: ys else y :: insertQ x ys

/-- Insertion sort on rationals (the sorted() call inside the median helper). -/
def sortQ (l : List ℚ) : List ℚ := l.foldr insertQ []

/-- The median helper from vocal_feedback.py (pure-Python fallback branch;
    the numpy median of a finite list agrees with it). -/
def median1 (vals : List ℚ) : Option ℚ :=
  if vals = [] then none
  else
    let vs := sortQ vals
    let n := vs.length
    let mid := n / 2
    if n % 2 = 1 then some (vs.getD mid 0)
    else some ((vs.getD (mid - 1) 0 + vs.getD mid 0) / 2)

/-- Python's max() applied to a nonempty list ([] gives the junk value 0). -/
def listMax : List ℚ → ℚ
  | [] => 0
  | x :: xs => xs.foldl max x

/-- numpy's mean of a list (sum divided by length). -/
def meanQ (l : List ℚ) : ℚ := l.sum / (l.length : ℚ)

/-- TremorThreshold dataclass defaults from vocal_feedback.py. -/
structure TremorThreshold where
  z_max_good : ℚ := 4/5
  z_max_ok : ℚ := 6/5
  z_max_warn : ℚ := 8/5
  jitter_penalty_thr : ℚ := 5/2
  shimmer_penalty_thr : ℚ := 9
  hnr_penalty_thr : ℚ := 12
  penalty_step : ℤ := 3
  floor : ℤ := 40

/-- SpeedThreshold dataclass defaults from vocal_feedback.py. -/
structure SpeedThreshold where
  syll_per_word : ℚ := 9/4
  good_min : ℤ := 140
  good_max : ℤ := 170
  mid1_min : ℤ := 120
  mid1_max : ℤ := 139
  mid2_min : ℤ := 171
  mid2_max : ℤ := 185
  edge1_min : ℤ := 100
  edge1_max : ℤ := 119
  edge2_min : ℤ := 186
  edge2_max : ℤ := 200

/-- PauseThreshold dataclass defaults from vocal_feedback.py. -/
structure PauseThreshold where
  med_good : ℚ := 9/50
  med_mid : ℚ := 1/4
  med_warn : ℚ := 7/20

/-- Weights dataclass defaults from vocal_feedback.py. -/
structure Weights where
  tremor : ℚ := 1/4
  pause : ℚ := 1/4
  tone : ℚ := 1/4
  speed : ℚ := 1/4

/-- Config dataclass from vocal_feedback.py. -/
structure Config where
  tremor : TremorThreshold := {}
  speed : SpeedThreshold := {}
  pause : PauseThreshold := {}
  weights : Weights := {}

/-- The default Config() value. -/
def defaultConfig : Config := {}

/-- One tremor timeline row as consumed by the tremor scorer
    (each field may be absent, matching dict.get returning None). -/
structure TremorRow where
  tremor_score : Option ℚ := none
  jitter_pct : Option ℚ := none
  shimmer_pct : Option ℚ := none
  hnr_db : Option ℚ := none
deriving DecidableEq

/-- One speed/pause timeline row as consumed by the speed and pause scorers.
    The second field is named pause_ratio in the source. -/
structure SpRow where
  speaking_rate_sps : Option ℚ := none
  pause_frac : Option ℚ := none
deriving DecidableEq

/-- The stats dict built by the tremor scorer. -/
structure TStats where
  z_max : ℚ
  jitter_pct : Option ℚ
  shimmer_pct : Option ℚ
  hnr_db : Option ℚ
deriving DecidableEq

/-- The base score / level selection on z_max inside the tremor scorer. -/
def tremorBase (th : TremorThreshold) (zmax : ℚ) : ℤ × String :=
  if zmax < th.z_max_good then (90, "양호")
  else if zmax < th.z_max_ok then (82, "양호")
  else if zmax < th.z_max_warn then (70, "약간")
  else (55, "주의")

/-- The three flat penalties applied to the base score inside the tremor scorer
    (the Python idiom x or 0 agrees with Option.getD 0 on these comparisons). -/
def tremorPenalized (th : TremorThreshold) (stats : TStats) (base : ℤ) : ℤ :=
  let s1 := if stats.jitter_pct.getD 0 > th.jitter_penalty_thr then base - th.penalty_step else base
  let s2 := if stats.shimmer_pct.getD 0 > th.shimmer_penalty_thr then s1 - th.penalty_step else s1
  match stats.hnr_db with
  | some h => if h < th.hnr_penalty_thr then s2 - th.penalty_step else s2
  | none => s2

/-- The structured tremor scorer from vocal_feedback.py
    (returns stats, integer score and level label). -/
def score_tremor_struct (rows : List TremorRow) (cfg : Config) :
    Option TStats × ℤ × String :=
  if rows = [] then (none, 0, "정보부족")
  else
    let z := rows.filterMap (fun r => r.tremor_score)
    if z = [] then (none, 0, "정보부족")
    else
      let jit := rows.filterMap (fun r => r.jitter_pct)
      let shm := rows.filterMap (fun r => r.shimmer_pct)
      let hnr := rows.filterMap (fun r => r.hnr_db)
      let stats : TStats := ⟨listMax z, median1 jit, median1 shm, median1 hnr⟩
      let th := cfg.tremor
      let bl := tremorBase th stats.z_max
      let score := tremorPenalized th stats bl.1
      (some stats, clamp_int (score : ℚ) th.floor 100, bl.2)

/-- The stats dict built by the speed scorer. -/
structure SStats where
  sps : ℚ
  wpm : ℤ
deriving DecidableEq

/-- The structured speed scorer from vocal_feedback.py. -/
def score_speed_struct (rows : List SpRow) (cfg : Config) :
    Option SStats × ℤ × String :=
  if rows = [] then (none, 0, "정보부족")
  else
    let sps := rows.filterMap (fun r => r.speaking_rate_sps)
    if sps = [] then (none, 0, "정보부족")
    else
      let sps_avg := (median1 sps).getD 0
      let wpm := clamp_int (sps_avg * 60 / cfg.speed.syll_per_word) 0 400
      let s := cfg.speed
      let sl : ℤ × String :=
        if s.good_min ≤ wpm ∧ wpm ≤ s.good_max then (88, "적정")
        else if (s.mid1_min ≤ wpm ∧ wpm ≤ s.mid1_max) ∨
                (s.mid2_min ≤ wpm ∧ wpm ≤ s.mid2_max) then (82, "적정~약간 빠름")
        else if (s.edge1_min ≤ wpm ∧ wpm ≤ s.edge1_max) ∨
                (s.edge2_min ≤ wpm ∧ wpm ≤ s.edge2_max) then (74, "빠름/느림")
        else (60, "과속/과늦")
      (some ⟨round2 sps_avg, wpm⟩, sl.1, sl.2)

/-- The info dict returned by the pause scorer. -/
structure PInfo where
  status : String
  avg : Option ℚ := none
deriving DecidableEq

/-- The structured pause scorer from vocal_feedback.py. -/
def score_pause_struct (rows : List SpRow) (cfg : Config) :
    PInfo × ℤ × String :=
  if rows = [] then (⟨"정보부족", none⟩, 80, "보통")
  else
    let pr := rows.filterMap (fun r => r.pause_frac)
    if pr = [] then (⟨"정보부족", none⟩, 80, "보통")
    else
      let p_med := (median1 pr).getD 0
      let p := cfg.pause
      if p_med ≤ p.med_good then (⟨"양호", some p_med⟩, 85, "양호")
      else if p_med ≤ p.med_mid then (⟨"약간", some p_med⟩, 78, "약간")
      else if p_med ≤ p.med_warn then (⟨"주의", some p_med⟩, 70, "주의")
      else (⟨"과다", some p_med⟩, 62, "과다")

/-- TONE_CFG from vocal_analysis.py, flattened into a record
    (sub-dictionary entries become prefixed fields). -/
structure ToneCfg where
  f0_range_target : ℚ × ℚ := (4, 17/2)
  ending_slope_ok : ℚ × ℚ := (6/5, 7/2)
  pitch_var_target : ℚ × ℚ := (6/5, 4)
  w_range : ℚ := 13/20
  w_slope : ℚ := 1/5
  w_var : ℚ := 3/20
  stress_rate_target : ℚ × ℚ := (2/25, 1/5)
  energy_var_db_target : ℚ × ℚ := (5/2, 6)
  energy_balance_tol : ℚ := 3/20
  npvi_target : ℚ × ℚ := (30, 65)
  syll_cv_target : ℚ × ℚ := (3/25, 7/25)
  regularity_target : ℚ × ℚ := (13/20, 9/10)
  w_intonation : ℚ := 2/5
  w_energy : ℚ := 3/10
  w_rhythm : ℚ := 3/10
  guard_range_lo : ℚ := 16/5
  guard_var_lo : ℚ := 6/5
  guard_cap : ℚ := 1/2

/-- The module-level TONE_CFG value. -/
def toneCfg : ToneCfg := {}

/-- band_score from vocal_analysis.py (None and non-finite inputs map to 0.0;
    a rational input is always finite). -/
def band_score (x : Option ℚ) (lo hi : ℚ) : ℚ :=
  match x with
  | none => 0
  | some v =>
    if lo ≤ v ∧ v ≤ hi then 1
    else
      let span := max (hi - lo) (1/1000000)
      let s := if v < lo then 1 - (lo - v) / span else 1 - (v - hi) / span
      max 0 (min 1 s)

/-- The safe band helper from vocal_analysis.py (returns None when the input
    is missing, otherwise the clipped linear band score). -/
def safe_band (x : Option ℚ) (lo hi : ℚ) : Option ℚ :=
  match x with
  | none => none
  | some v =>
    if lo ≤ v ∧ v ≤ hi then some 1
    else
      let span := max (hi - lo) (1/1000000)
      let s := 1 - (if v > hi then v - hi else lo - v) / span
      some (max 0 (min 1 s))

/-- The intonation summary fields consumed by the tone scorer
    (robust_eval_intonation output), each possibly missing. -/
structure IntonSummary where
  f0_range_st : Option ℚ := none
  ending_slope_hz_per_s : Option ℚ := none
  pitch_var_st : Option ℚ := none
deriving DecidableEq

/-- The energy summary fields consumed by the tone scorer (eval_energy output). -/
structure EnergySummary where
  stress_rate : Option ℚ := none
  energy_var_db : Option ℚ := none
  balance : Option ℚ := none
deriving DecidableEq

/-- The rhythm summary fields consumed by the tone scorer
    (eval_rhythm_timing output). -/
structure RhythmSummary where
  npvi : Option ℚ := none
  syll_cv : Option ℚ := none
  regularity : Option ℚ := none
deriving DecidableEq

/-- The intonation subscore from vocal_analysis.py.  np.average(parts, w) is
    the weight-normalized sum; the source truncates the weight list to the
    number of present parts without realigning it, which is kept here. -/
def intonation_subscore (isumm : IntonSummary) (cfg : ToneCfg) : ℚ :=
  let s_range := safe_band isumm.f0_range_st cfg.f0_range_target.1 cfg.f0_range_target.2
  let s_var := safe_band isumm.pitch_var_st cfg.pitch_var_target.1 cfg.pitch_var_target.2
  let s_slope0 := safe_band isumm.ending_slope_hz_per_s cfg.ending_slope_ok.1 cfg.ending_slope_ok.2
  let s_slope := match isumm.ending_slope_hz_per_s with
    | some v => if |v| ≤ 1/5 then some (s_slope0.getD 0 * (9/10)) else s_slope0
    | none => s_slope0
  let parts := [s_range, s_slope, s_var].filterMap id
  let ws := [cfg.w_range, cfg.w_slope, cfg.w_var].take parts.length
  let sc0 := if parts = [] then 0 else (List.zipWith (fun a b => a * b) ws parts).sum / ws.sum
  let sc := if isumm.f0_range_st.getD 0 < cfg.guard_range_lo ∧
               isumm.pitch_var_st.getD 0 < cfg.guard_var_lo
            then min sc0 cfg.guard_cap else sc0
  max 0 (min 1 sc)

/-- The record returned by compute_tone_fixed (the drivers entry, a verbatim
    echo of the input summaries, is omitted; coverage is kept). -/
structure ToneResult where
  tone_score : ℤ
  label : String
  coverage : ℚ
deriving DecidableEq

/-- The energy sub-block of compute_tone_fixed: mean of the present band
    scores of stress rate, energy variance and balance, None when all are
    missing. -/
def energy_subscore (esumm : EnergySummary) (cfg : ToneCfg) : Option ℚ :=
  let s_en_stress := safe_band esumm.stress_rate cfg.stress_rate_target.1 cfg.stress_rate_target.2
  let s_en_var := safe_band esumm.energy_var_db cfg.energy_var_db_target.1 cfg.energy_var_db_target.2
  let s_en_bal := safe_band esumm.balance 0 cfg.energy_balance_tol
  let en_parts := [s_en_stress, s_en_var, s_en_bal].filterMap id
  if en_parts = [] then none else some (meanQ en_parts)

/-- The rhythm sub-block of compute_tone_fixed. -/
def rhythm_subscore (rsumm : RhythmSummary) (cfg : ToneCfg) : Option ℚ :=
  let s_r_npvi := safe_band rsumm.npvi cfg.npvi_target.1 cfg.npvi_target.2
  let s_r_cv := safe_band rsumm.syll_cv cfg.syll_cv_target.1 cfg.syll_cv_target.2
  let s_r_reg := safe_band rsumm.regularity cfg.regularity_target.1 cfg.regularity_target.2
  let rh_parts := [s_r_npvi, s_r_cv, s_r_reg].filterMap id
  if rh_parts = [] then none else some (meanQ rh_parts)

/-- The weighted contribution of an optional subscore to tone_0_1. -/
def optTerm (w : ℚ) (o : Option ℚ) : ℚ :=
  match o with
  | some v => w * v
  | none => 0

/-- The tone_0_1 accumulation of compute_tone_fixed (a missing energy or
    rhythm summary contributes nothing, as in the source conditionals). -/
def tone01 (inton : IntonSummary) (energy : Option EnergySummary)
    (rhythm : Option RhythmSummary) (cfg : ToneCfg) : ℚ :=
  cfg.w_intonation * intonation_subscore inton cfg
    + optTerm cfg.w_energy (energy_subscore (energy.getD ⟨none, none, none⟩) cfg)
    + optTerm cfg.w_rhythm (rhythm_subscore (rhythm.getD ⟨none, none, none⟩) cfg)

/-- compute_tone_fixed from vocal_analysis.py. -/
def compute_tone_fixed (inton : IntonSummary) (energy : Option EnergySummary)
    (rhythm : Option RhythmSummary) (cfg : ToneCfg) : ToneResult :=
  let sc_energy := energy_subscore (energy.getD ⟨none, none, none⟩) cfg
  let sc_rhythm := rhythm_subscore (rhythm.getD ⟨none, none, none⟩) cfg
  let t01 := tone01 inton energy rhythm cfg
  let tone_score := pyRound (100 * t01)
  let coverage := cfg.w_intonation
      + (if sc_energy.isSome then cfg.w_energy else 0)
      + (if sc_rhythm.isSome then cfg.w_rhythm else 0)
  let eff := if 0 < coverage then t01 / coverage else 0
  let label := if 4/5 ≤ eff then "자신감 있고 안정적"
    else if 13/20 ≤ eff then "대체로 자연스러움"
    else if 1/2 ≤ eff then "다소 단조/불균형"
    else "단조/불안정"
  ⟨tone_score, label, coverage⟩

/-- The fields of the dict built by build_payload_from_structures that the
    claims are about: the total and the four metric scores (summary text and
    description strings are presentation only and omitted). -/
structure Payload where
  total_score : ℤ
  tremor_metric : ℤ
  pause_metric : ℤ
  tone_metric : ℤ
  speed_metric : ℤ
deriving DecidableEq

/-- build_payload_from_structures from vocal_feedback.py:
    runs the three structured scorers, reads tone_score from the tone result,
    and combines them with the configured weights into the clamped total.
    The tone metric entry applies min(100, max(0, tone_score)) as the source does. -/
def build_payload_from_structures (tremor : List TremorRow) (sp_tl : List SpRow)
    (tone : ToneResult) (cfg : Config) : Payload :=
  let t := score_tremor_struct tremor cfg
  let s := score_speed_struct sp_tl cfg
  let p := score_pause_struct sp_tl cfg
  let t_score := t.2.1
  let s_score := s.2.1
  let p_score := p.2.1
  let tone_score := tone.tone_score
  let w := cfg.weights
  let total := clamp_int
    (w.tremor * (t_score : ℚ) + w.pause * (p_score : ℚ) +
     w.tone * (tone_score : ℚ) + w.speed * (s_score : ℚ)) 0 100
  ⟨total, t_score, p_score, min 100 (max 0 tone_score), s_score⟩

/-- One unrolling step of the while loop in sliding_windows.  The fuel
    argument dominates the iteration count (the loop advances t by hop each
    step and stops once t reaches dur - 1e-9, after at most ceil(dur/hop)
    steps), so with the fuel below the produced list equals the loop output. -/
def swGo (dur win hop : ℚ) : Nat → ℚ → List (ℚ × ℚ)
  | 0, _ => []
  | fuel + 1, t =>
    if t < dur - 1/1000000000 then
      (t, min dur (t + win)) :: swGo dur win hop fuel (t + hop)
    else []

/-- Fuel bound for the sliding_windows loop. -/
def swFuel (dur hop : ℚ) : Nat := (⌈dur / hop⌉).toNat + 1

/-- sliding_windows from vocal_analysis.py.  The Python loop does not
    terminate for hop ≤ 0; the claims only concern hop > 0, and the
    embedding returns [] in that degenerate case. -/
def sliding_windows (dur win hop : ℚ) : List (ℚ × ℚ) :=
  if 0 < hop then swGo dur win hop (swFuel dur hop) 0 else []

/-- NaN-propagating addition on possibly-undefined values: Praat call results
    that are undefined are modelled as none, and IEEE NaN absorbs through
    the arithmetic the source performs on them. -/
def nAdd (a b : Option ℚ) : Option ℚ :=
  match a, b with
  | some x, some y => some (x + y)
  | _, _ => none

/-- NaN-propagating scalar multiple. -/
def nMulC (c : ℚ) (a : Option ℚ) : Option ℚ := a.map (fun x => c * x)

/-- np.clip(x, 0, 1), which propagates NaN. -/
def nClip01 (a : Option ℚ) : Option ℚ := a.map (fun x => max 0 (min 1 x))

/-- Python's round(x, 3) used on per-row tremor scores. -/
def round3 (q : ℚ) : ℚ := (pyRound (q * 1000) : ℚ) / 1000

/-- One raw tremor timeline row before normalization, as built by eval_tremor:
    jitter/shimmer/HNR come from Praat calls and are undefined (NaN, modelled
    as none) when the window holds no periodic voiced signal, while the band
    energies are plain numbers (0.0 when no finite F0/intensity samples
    exist in the window). -/
structure RawTremorRow where
  jitter_pct : Option ℚ
  shimmer_pct : Option ℚ
  hnr_db : Option ℚ
  fm_4_12 : ℚ
  am_4_12 : ℚ
deriving DecidableEq

/-- The per-row normalization and weighting step of eval_tremor (the second
    loop, with PROSODY_CFG reference values jitter_ref_pct = 2,
    shimmer_ref_pct = 6, hnr_good_db = 18 and the fixed tremor weights
    0.18/0.17/0.10/0.35/0.20; use_amfm is True in the pipeline). -/
def tremor_score_row (r : RawTremorRow) (fm_ref am_ref : ℚ) : Option ℚ :=
  let sj := nClip01 (r.jitter_pct.map (fun x => x / 2))
  let ss := nClip01 (r.shimmer_pct.map (fun x => x / 6))
  let sh := nClip01 (r.hnr_db.map (fun x => (18 - x) / max 18 (1/1000000)))
  let fmN := max 0 (min 1 (r.fm_4_12 / fm_ref))
  let amN := max 0 (min 1 (r.am_4_12 / am_ref))
  (nAdd (nAdd (nAdd (nAdd (nMulC (18/100) sj) (nMulC (17/100) ss))
    (nMulC (1/10) sh)) (some (35/100 * fmN))) (some (2/10 * amN))).map round3

/-- One tremor timeline row as consumed by tremor_z_segments (the source
    column named end is a Lean keyword, rendered stop here). -/
structure TRow where
  start : ℚ
  stop : ℚ
  tremor_score : ℚ
deriving DecidableEq

/-- The center column added by the ensure-center helper: (start + end) / 2. -/
def TRow.center (r : TRow) : ℚ := (r.start + r.stop) / 2

/-- Insertion of a row into a list sorted by center. -/
def insertRow (r : TRow) : List TRow → List TRow
  | [] => [r]
  | x :: xs => if r.center < x.center then r :: x :: xs else x :: insertRow r xs

/-- Sort rows by center (pandas sort_values on the center column). -/
def sortRows (l : List TRow) : List TRow := l.foldr insertRow []

/-- The centered rolling median over window k with min_periods minp:
    entry i aggregates indices max(0, i - k/2) .. min(n-1, i + (k-1)/2),
    as pandas rolling(window=k, center=True) does; an entry whose window
    holds fewer than minp values is NaN (none). -/
def rollMedian (scores : List ℚ) (k minp : Nat) : List (Option ℚ) :=
  let n := scores.length
  (List.range n).map (fun i =>
    let lo := i - k / 2
    let hi := min (n - 1) (i + (k - 1) / 2)
    let vals := (scores.drop lo).take (hi + 1 - lo)
    if minp ≤ vals.length then median1 vals else none)

/-- Forward fill (pandas ffill): carry the last seen value over gaps. -/
def ffill (carry : Option ℚ) : List (Option ℚ) → List (Option ℚ)
  | [] => []
  | none :: rest => carry :: ffill carry rest
  | some v :: rest => some v :: ffill (some v) rest

/-- Backward fill (pandas bfill): fill gaps with the next present value. -/
def bfill (l : List (Option ℚ)) : List (Option ℚ) := (ffill none l.reverse).reverse

/-- A raw or merged tremor segment.  The source segment dict also carries the
    constituent rows, used only for downstream event statistics; the z_max
    statistic is kept. -/
structure Seg where
  start : ℚ
  stop : ℚ
  z_max : ℚ
deriving DecidableEq

/-- Scan state of the z-gating loop in tremor_z_segments: whether a run is
    open, the start of the current qualifying streak, the streak's running z
    maximum, the consecutive-qualifying counter, and the previous row's end. -/
structure RState where
  inRun : Bool
  streakStart : ℚ
  zmax : ℚ
  consec : Nat
  prevEnd : ℚ
deriving DecidableEq

/-- The z-gating loop of tremor_z_segments over rows paired with their z value
    (a none z is a NaN z — the branch that closes any open run; with
    voiced_mask=None every row is otherwise valid).  A run is entered after
    minc consecutive windows at or above z_hi, left when z falls below z_lo,
    and kept only when it lasts at least min_dur — the duration filter runs
    at close time, before any merging. -/
def scanRuns (z_hi z_lo min_dur : ℚ) (minc : Nat) :
    List (TRow × Option ℚ) → RState → List Seg
  | [], st =>
    if st.inRun then
      if min_dur ≤ st.prevEnd - st.streakStart then
        [⟨st.streakStart, st.prevEnd, st.zmax⟩]
      else []
    else []
  | (r, zo) :: rest, st =>
    match zo with
    | none =>
      (if st.inRun ∧ min_dur ≤ st.prevEnd - st.streakStart then
        [(⟨st.streakStart, st.prevEnd, st.zmax⟩ : Seg)] else []) ++
      scanRuns z_hi z_lo min_dur minc rest ⟨false, 0, 0, 0, r.stop⟩
    | some z =>
      if st.inRun then
        if z < z_lo then
          (if min_dur ≤ st.prevEnd - st.streakStart then
            [(⟨st.streakStart, st.prevEnd, st.zmax⟩ : Seg)] else []) ++
          scanRuns z_hi z_lo min_dur minc rest ⟨false, 0, 0, 0, r.stop⟩
        else
          scanRuns z_hi z_lo min_dur minc rest
            ⟨true, st.streakStart, max st.zmax z, st.consec, r.stop⟩
      else
        if z_hi ≤ z then
          let c := st.consec + 1
          let sStart := if st.consec = 0 then r.start else st.streakStart
          let zm := if st.consec = 0 then z else max st.zmax z
          scanRuns z_hi z_lo min_dur minc rest ⟨decide (minc ≤ c), sStart, zm, c, r.stop⟩
        else
          scanRuns z_hi z_lo min_dur minc rest ⟨false, st.streakStart, st.zmax, 0, r.stop⟩

/-- The merge loop of tremor_z_segments: a segment starting within merge_gap
    of the previously accepted segment's end extends it. -/
def mergeGo (gap : ℚ) (cur : Seg) : List Seg → List Seg
  | [] => [cur]
  | s :: rest =>
    if s.start - cur.stop ≤ gap then
      mergeGo gap ⟨cur.start, s.stop, max cur.z_max s.z_max⟩ rest
    else cur :: mergeGo gap s rest

/-- Merge adjacent segments within merge_gap (tremor_z_segments tail loop). -/
def mergeSegs (gap : ℚ) : List Seg → List Seg
  | [] => []
  | s :: rest => mergeGo gap s rest

/-- The z series of tremor_z_segments: centered rolling median of the scores
    (window win_sec / median hop, min_periods max(3, k//3)), bfill then
    ffill, zeros replaced by the median of the series, and each score divided
    by this baseline.  none stands for NaN; a zero baseline surviving the
    replacement (a float infinity in the source) is likewise sent to none,
    a corner none of the claims touch. -/
def zSeries (rows : List TRow) (win_sec : ℚ) : List (Option ℚ) :=
  let centers := rows.map TRow.center
  let scores := rows.map TRow.tremor_score
  let diffs := List.zipWith (fun a b => b - a) centers (centers.drop 1)
  let hop := (median1 diffs).getD 0
  let k := (max 1 (pyInt (win_sec / max hop (1/1000000)))).toNat
  let minp := max 3 (k / 3)
  let med := ffill none (bfill (rollMedian scores k minp))
  let medmed := median1 (med.filterMap id)
  let baseline := med.map (fun m => match m with
    | some v => if v = 0 then medmed else some v
    | none => none)
  List.zipWith (fun sc b => match b with
    | some bv => if bv = 0 then none else some (sc / bv)
    | none => none) scores baseline

/-- The raw (pre-merge) run list of tremor_z_segments, named separately so
    that the placement of the minimum-duration filter relative to merging
    can be stated. -/
def rawTremorRuns (timeline : List TRow) (win_sec z_hi z_lo min_dur : ℚ)
    (minc : Nat) : List Seg :=
  let df := sortRows timeline
  scanRuns z_hi z_lo min_dur minc (df.zip (zSeries df win_sec)) ⟨false, 0, 0, 0, 0⟩

/-- tremor_z_segments from vocal_analysis.py at voiced_mask=None: sort by
    center, fewer than 3 rows give no segments, otherwise scan runs and merge
    the survivors. -/
def tremor_z_segments (timeline : List TRow) (win_sec z_hi z_lo min_dur merge_gap : ℚ)
    (minc : Nat) : List Seg :=
  if (sortRows timeline).length < 3 then []
  else mergeSegs merge_gap (rawTremorRuns timeline win_sec z_hi z_lo min_dur minc)

/-- One merged-timeline row as consumed by the span grouping and the speed
    collector in detect_grouped_with_cfg / detect_speed_spans (the smoothed
    rate column the speed collector reads is abstracted as a row field; the
    source fields pause_ratio and voiced_ratio are rendered pause_frac and
    voiced_frac). -/
structure MRow where
  start : ℚ
  stop : ℚ
  speaking_rate_sps : ℚ
  articulation_rate_sps : ℚ
  pause_frac : ℚ
  voiced_frac : ℚ
deriving DecidableEq

/-- PROSODY_CFG pause ratio band (0.15, 0.35). -/
def pause_band : ℚ × ℚ := (3/20, 7/20)

/-- The excessive-pause flag column: pause ratio above the band's top. -/
def flag_pause_high (r : MRow) : Bool := decide (pause_band.2 < r.pause_frac)

/-- The spans helper inside detect_grouped_with_cfg: group maximal runs of
    consecutively flagged rows — with no minimum duration and no merging. -/
def spansGo (flag : MRow → Bool) : List MRow → Option (ℚ × ℚ × List MRow) →
    List (ℚ × ℚ × List MRow)
  | [], none => []
  | [], some c => [c]
  | r :: rest, none =>
    if flag r then spansGo flag rest (some (r.start, r.stop, [r]))
    else spansGo flag rest none
  | r :: rest, some c =>
    if flag r then spansGo flag rest (some (c.1, r.stop, c.2.2 ++ [r]))
    else c :: spansGo flag rest none

/-- The spans helper applied to a flag column over the merged rows. -/
def spans (flag : MRow → Bool) (rows : List MRow) : List (ℚ × ℚ × List MRow) :=
  spansGo flag rows none

/-- A reported span event: start/end and row medians, rounded as reported. -/
structure SpanEvent where
  start : ℚ
  stop : ℚ
  speaking_med : ℚ
  artic_med : ℚ
  pause_med : ℚ
deriving DecidableEq

/-- The per-span event summary in detect_grouped_with_cfg. -/
def summarizeSpan (s : ℚ × ℚ × List MRow) : SpanEvent :=
  ⟨round2 s.1, round2 s.2.1,
   round2 ((median1 (s.2.2.map MRow.speaking_rate_sps)).getD 0),
   round2 ((median1 (s.2.2.map MRow.articulation_rate_sps)).getD 0),
   round2 ((median1 (s.2.2.map MRow.pause_frac)).getD 0)⟩

/-- The pause_high entry of the grouped output. -/
def pause_high_events (rows : List MRow) : List SpanEvent :=
  (spans flag_pause_high rows).map summarizeSpan

/-- The pause_low entry of the grouped output: the source assigns the empty
    list literal (the low-pause flag column is computed but never surfaced). -/
def pause_low_events : List SpanEvent := []

/-- SPEED_PARAMS from vocal_analysis.py. -/
structure SpeedParams where
  fast_hi : ℚ := 61/10
  fast_lo : ℚ := 28/5
  slow_lo : ℚ := 13/5
  slow_hi : ℚ := 16/5
  min_hold : ℚ := 1
  merge_gap : ℚ := 1/2

/-- The module-level SPEED_PARAMS value. -/
def speedParams : SpeedParams := {}

/-- VOICED_THR from vocal_analysis.py. -/
def VOICED_THR : ℚ := 13/20

/-- FAST_MAX_PAUSE from vocal_analysis.py. -/
def FAST_MAX_PAUSE : ℚ := 13/50

/-- SLOW_MIN_PAUSE from vocal_analysis.py. -/
def SLOW_MIN_PAUSE : ℚ := 1/4

/-- The fast-entry predicate of detect_speed_spans (rate above fast_hi, low
    pause ratio, adequate voiced ratio), on the abstracted rate column. -/
def ok_fast (p : SpeedParams) (r : MRow) : Bool :=
  decide (p.fast_hi < r.articulation_rate_sps) &&
  decide (r.pause_frac < FAST_MAX_PAUSE) && decide (VOICED_THR ≤ r.voiced_frac)

/-- The slow-entry predicate of detect_speed_spans. -/
def ok_slow (p : SpeedParams) (r : MRow) : Bool :=
  decide (r.articulation_rate_sps < p.slow_lo) &&
  decide (SLOW_MIN_PAUSE < r.pause_frac) && decide (VOICED_THR ≤ r.voiced_frac)

/-- The run collector from detect_speed_spans: hysteresis entry by a row
    predicate, exit by a rate predicate, and acceptance of a run only when it
    lasts at least min_hold.  Rational row values are always finite, so the
    NaN-skip branch of the source loop never fires; the collected rows, used
    only for event statistics, are omitted. -/
def collectGo (enter : MRow → Bool) (exitP : ℚ → Bool) (rate : MRow → ℚ)
    (min_hold : ℚ) : List MRow → Option (ℚ × ℚ) → List (ℚ × ℚ)
  | [], none => []
  | [], some c => if min_hold ≤ c.2 - c.1 then [c] else []
  | r :: rest, none =>
    if enter r then collectGo enter exitP rate min_hold rest (some (r.start, r.stop))
    else collectGo enter exitP rate min_hold rest none
  | r :: rest, some c =>
    if exitP (rate r) then
      (if min_hold ≤ c.2 - c.1 then [c] else []) ++
        collectGo enter exitP rate min_hold rest none
    else collectGo enter exitP rate min_hold rest (some (c.1, r.stop))

/-- The merge loop of the speed collector: merge adjacent accepted runs whose
    gap is at most merge_gap. -/
def mergePairsGo (gap : ℚ) (cur : ℚ × ℚ) : List (ℚ × ℚ) → List (ℚ × ℚ)
  | [] => [cur]
  | s :: rest =>
    if s.1 - cur.2 ≤ gap then mergePairsGo gap (cur.1, s.2) rest
    else cur :: mergePairsGo gap s rest

/-- Merge adjacent run pairs within merge_gap. -/
def mergePairs (gap : ℚ) : List (ℚ × ℚ) → List (ℚ × ℚ)
  | [] => []
  | s :: rest => mergePairsGo gap s rest

/-- One direction of detect_speed_spans: collect runs then merge. -/
def collectSpans (enter : MRow → Bool) (exitP : ℚ → Bool) (rate : MRow → ℚ)
    (p : SpeedParams) (rows : List MRow) : List (ℚ × ℚ) :=
  mergePairs p.merge_gap (collectGo enter exitP rate p.min_hold rows none)

/-- Per-window tremor scores for the C3 example timeline: two 3-window
    qualifying bursts (score 2) inside a score-1 background, each closed by a
    low-z window (score 0.1). -/
def c3scores : List ℚ := [1, 1, 1, 1, 1, 1, 2, 2, 2, 1/10, 2, 2, 2, 1/10, 1, 1, 1, 1, 1]

/-- A 19-window tremor timeline with window size = hop = 0.19 s, so each
    3-window qualifying run lasts 0.57 s, just under the 0.6 s minimum,
    while the two runs are 0.19 s apart and jointly span 1.33 s. -/
def exampleC3 : List TRow :=
  (List.range 19).map (fun (i : Nat) => ⟨19 * (i : ℚ) / 100, 19 * ((i : ℚ) + 1) / 100, c3scores.getD i 0⟩)

/-- Per-window tremor scores for the witness timeline: one 3-window burst. -/
def c3bscores : List ℚ := [1, 1, 1, 1, 1, 1, 2, 2, 2, 1/10, 1, 1, 1, 1, 1]

/-- A 15-window tremor timeline with window size = hop = 0.5 s whose single
    qualifying run lasts 1.5 s and is therefore retained. -/
def exampleC3b : List TRow :=
  (List.range 15).map (fun (i : Nat) => ⟨(i : ℚ) / 2, ((i : ℚ) + 1) / 2, c3bscores.getD i 0⟩)

/-- Four merged-timeline rows (0.5 s windows, 0.2 s hop) whose pause ratio
    alternates above and below the 0.35 threshold. -/
def exampleC4 : List MRow :=
  [⟨0, 1/2, 4, 4, 1/2, 1/2⟩,
   ⟨1/5, 7/10, 4, 4, 1/10, 9/10⟩,
   ⟨2/5, 9/10, 4, 4, 1/2, 1/2⟩,
   ⟨3/5, 11/10, 4, 4, 1/10, 9/10⟩]

/-- An intonation summary with no pitch range and no pitch variability
    (both under the monotone-guard floors) but an in-band ending slope. -/
def exampleInton : IntonSummary := ⟨some 0, some 2, some 0⟩

/-- An energy summary with every sub-metric inside its target band. -/
def exampleEnergy : EnergySummary := ⟨some (3/20), some 4, some (1/10)⟩

/-- A rhythm summary with every sub-metric inside its target band. -/
def exampleRhythm : RhythmSummary := ⟨some 50, some (1/5), some (4/5)⟩

theorem pyRound_intCast (n : ℤ) : pyRound (n : ℚ) = n := by
  unfold pyRound
  rw [Int.floor_intCast]
  norm_num

theorem pyRound_le (q : ℚ) : (pyRound q : ℚ) ≤ q + 1/2 := by
  unfold pyRound
  have hf := Int.floor_le q
  have hf1 := Int.lt_floor_add_one q
  split_ifs with h1 h2 h3 <;> push_cast <;> linarith

theorem le_pyRound (q : ℚ) : q - 1/2 ≤ (pyRound q : ℚ) := by
  unfold pyRound
  have hf := Int.floor_le q
  have hf1 := Int.lt_floor_add_one q
  split_ifs with h1 h2 h3 <;> push_cast <;> linarith

theorem pyRound_le_int (x : ℚ) (b : ℤ) (h : x + 1/2 < (b : ℚ) + 1) : pyRound x ≤ b := by
  have h1 : (pyRound x : ℚ) < (b : ℚ) + 1 := lt_of_le_of_lt (pyRound_le x) h
  have h2 : pyRound x < b + 1 := by exact_mod_cast h1
  omega

theorem int_le_pyRound (x : ℚ) (b : ℤ) (h : (b : ℚ) - 1 < x - 1/2) : b ≤ pyRound x := by
  have h1 : (b : ℚ) - 1 < (pyRound x : ℚ) := lt_of_lt_of_le h (le_pyRound x)
  have h2 : b - 1 < pyRound x := by exact_mod_cast h1
  omega

theorem clamp_int_lb (x : ℚ) (lo hi : ℤ) : lo ≤ clamp_int x lo hi := le_max_left lo _

theorem clamp_int_ub (x : ℚ) (lo hi : ℤ) (h : lo ≤ hi) : clamp_int x lo hi ≤ hi :=
  max_le h (min_le_left hi _)

theorem clamp_int_le (x : ℚ) (b : ℤ) (hb : 0 ≤ b) (h : x + 1/2 < (b : ℚ) + 1) :
    clamp_int x 0 100 ≤ b :=
  max_le hb (le_trans (min_le_right 100 _) (pyRound_le_int x b h))

theorem clamp_int_intCast (n lo hi : ℤ) : clamp_int (n : ℚ) lo hi = max lo (min hi n) := by
  unfold clamp_int
  rw [pyRound_intCast]

theorem tremorBase_cases (th : TremorThreshold) (z : ℚ) :
    (tremorBase th z).1 = 90 ∨ (tremorBase th z).1 = 82 ∨
    (tremorBase th z).1 = 70 ∨ (tremorBase th z).1 = 55 := by
  unfold tremorBase
  split_ifs <;> simp

theorem tremorPenalized_bounds (th : TremorThreshold) (stats : TStats) (base : ℤ)
    (hstep : 0 ≤ th.penalty_step) :
    base - 3 * th.penalty_step ≤ tremorPenalized th stats base ∧
    tremorPenalized th stats base ≤ base := by
  unfold tremorPenalized
  rcases stats.hnr_db with _ | h <;> simp only [] <;> split_ifs <;> omega

theorem score_tremor_cases (rows : List TremorRow) :
    (score_tremor_struct rows defaultConfig).2.1 = 0 ∨
    (40 ≤ (score_tremor_struct rows defaultConfig).2.1 ∧
     (score_tremor_struct rows defaultConfig).2.1 ≤ 90) := by
  simp only [score_tremor_struct]
  split_ifs with h1 h2
  · simp
  · simp
  · right
    dsimp only
    set st : TStats :=
      ⟨listMax (rows.filterMap (fun r => r.tremor_score)),
       median1 (rows.filterMap (fun r => r.jitter_pct)),
       median1 (rows.filterMap (fun r => r.shimmer_pct)),
       median1 (rows.filterMap (fun r => r.hnr_db))⟩ with hst
    have hbase := tremorBase_cases defaultConfig.tremor
      (listMax (rows.filterMap (fun r => r.tremor_score)))
    have hstep : (0 : ℤ) ≤ defaultConfig.tremor.penalty_step := by decide
    have hpen := tremorPenalized_bounds defaultConfig.tremor st
      (tremorBase defaultConfig.tremor (listMax (rows.filterMap (fun r => r.tremor_score)))).1 hstep
    have hfloor : defaultConfig.tremor.floor = 40 := rfl
    have hstepval : defaultConfig.tremor.penalty_step = 3 := rfl
    rw [clamp_int_intCast, hfloor]
    rw [hstepval] at hpen
    constructor
    · omega
    · omega

theorem score_speed_cases (rows : List SpRow) (cfg : Config) :
    (score_speed_struct rows cfg).2.1 = 0 ∨ (score_speed_struct rows cfg).2.1 = 88 ∨
    (score_speed_struct rows cfg).2.1 = 82 ∨ (score_speed_struct rows cfg).2.1 = 74 ∨
    (score_speed_struct rows cfg).2.1 = 60 := by
  simp only [score_speed_struct]
  split_ifs <;> simp

theorem score_pause_cases (rows : List SpRow) (cfg : Config) :
    (score_pause_struct rows cfg).2.1 = 80 ∨ (score_pause_struct rows cfg).2.1 = 85 ∨
    (score_pause_struct rows cfg).2.1 = 78 ∨ (score_pause_struct rows cfg).2.1 = 70 ∨
    (score_pause_struct rows cfg).2.1 = 62 := by
  simp only [score_pause_struct]
  split_ifs <;> simp

theorem safe_band_bounds (x : Option ℚ) (lo hi v : ℚ) (h : safe_band x lo hi = some v) :
    0 ≤ v ∧ v ≤ 1 := by
  cases x with
  | none => simp [safe_band] at h
  | some w =>
    simp only [safe_band] at h
    split_ifs at h <;> rw [Option.some.injEq] at h <;> subst h
    · norm_num
    · exact ⟨le_max_left _ _, max_le (by norm_num) (min_le_left _ _)⟩
    · exact ⟨le_max_left _ _, max_le (by norm_num) (min_le_left _ _)⟩

theorem filterMap_id_bounds (l : List (Option ℚ))
    (h : ∀ o ∈ l, ∀ v, o = some v → 0 ≤ v ∧ v ≤ 1) :
    ∀ x ∈ l.filterMap id, 0 ≤ x ∧ x ≤ 1 := by
  intro x hx
  rw [List.mem_filterMap] at hx
  obtain ⟨o, ho, hox⟩ := hx
  exact h o ho x hox

theorem meanQ_bounds (l : List ℚ) (hne : l ≠ []) (h : ∀ x ∈ l, 0 ≤ x ∧ x ≤ 1) :
    0 ≤ meanQ l ∧ meanQ l ≤ 1 := by
  have hlen : 0 < (l.length : ℚ) := by
    have := List.length_pos.mpr hne
    exact_mod_cast this
  have hsum0 : 0 ≤ l.sum := List.sum_nonneg (fun x hx => (h x hx).1)
  have hsum1 : l.sum ≤ (l.length : ℚ) := by
    have := List.sum_le_card_nsmul l 1 (fun x hx => (h x hx).2)
    simpa using this
  unfold meanQ
  exact ⟨div_nonneg hsum0 (le_of_lt hlen), by rw [div_le_one hlen]; exact hsum1⟩

theorem energy_subscore_bounds (esumm : EnergySummary) (cfg : ToneCfg) (v : ℚ)
    (h : energy_subscore esumm cfg = some v) : 0 ≤ v ∧ v ≤ 1 := by
  simp only [energy_subscore] at h
  split_ifs at h with h1
  rw [Option.some.injEq] at h
  subst h
  refine meanQ_bounds _ h1 (filterMap_id_bounds _ ?_)
  intro o ho v' hov
  simp only [List.mem_cons, List.not_mem_nil, or_false] at ho
  rcases ho with rfl | rfl | rfl <;> exact safe_band_bounds _ _ _ _ hov

theorem rhythm_subscore_bounds (rsumm : RhythmSummary) (cfg : ToneCfg) (v : ℚ)
    (h : rhythm_subscore rsumm cfg = some v) : 0 ≤ v ∧ v ≤ 1 := by
  simp only [rhythm_subscore] at h
  split_ifs at h with h1
  rw [Option.some.injEq] at h
  subst h
  refine meanQ_bounds _ h1 (filterMap_id_bounds _ ?_)
  intro o ho v' hov
  simp only [List.mem_cons, List.not_mem_nil, or_false] at ho
  rcases ho with rfl | rfl | rfl <;> exact safe_band_bounds _ _ _ _ hov

theorem intonation_subscore_bounds (i : IntonSummary) (cfg : ToneCfg) :
    0 ≤ intonation_subscore i cfg ∧ intonation_subscore i cfg ≤ 1 := by
  unfold intonation_subscore
  dsimp only
  exact ⟨le_max_left _ _, max_le (by norm_num) (min_le_left _ _)⟩

theorem optTerm_bounds (w : ℚ) (hw : 0 ≤ w) (o : Option ℚ)
    (h : ∀ v, o = some v → 0 ≤ v ∧ v ≤ 1) :
    0 ≤ optTerm w o ∧ optTerm w o ≤ w := by
  cases o with
  | none => exact ⟨le_refl 0, hw⟩
  | some v =>
    obtain ⟨h0, h1⟩ := h v rfl
    refine ⟨mul_nonneg hw h0, ?_⟩
    calc w * v ≤ w * 1 := mul_le_mul_of_nonneg_left h1 hw
    _ = w := mul_one w

theorem tone01_bounds (i : IntonSummary) (e : Option EnergySummary)
    (r : Option RhythmSummary) : 0 ≤ tone01 i e r toneCfg ∧ tone01 i e r toneCfg ≤ 1 := by
  have hsi := intonation_subscore_bounds i toneCfg
  have hwi : toneCfg.w_intonation = 2/5 := rfl
  have hwe : toneCfg.w_energy = 3/10 := rfl
  have hwr : toneCfg.w_rhythm = 3/10 := rfl
  have hE := optTerm_bounds toneCfg.w_energy (by rw [hwe]; norm_num)
    (energy_subscore (e.getD ⟨none, none, none⟩) toneCfg)
    (fun v hv => energy_subscore_bounds _ _ v hv)
  have hR := optTerm_bounds toneCfg.w_rhythm (by rw [hwr]; norm_num)
    (rhythm_subscore (r.getD ⟨none, none, none⟩) toneCfg)
    (fun v hv => rhythm_subscore_bounds _ _ v hv)
  have hA0 : 0 ≤ toneCfg.w_intonation * intonation_subscore i toneCfg :=
    mul_nonneg (by rw [hwi]; norm_num) hsi.1
  have hA1 : toneCfg.w_intonation * intonation_subscore i toneCfg ≤ 2/5 := by
    rw [hwi]
    calc (2/5 : ℚ) * intonation_subscore i toneCfg ≤ 2/5 * 1 :=
      mul_le_mul_of_nonneg_left hsi.2 (by norm_num)
    _ = 2/5 := mul_one _
  unfold tone01
  constructor
  · exact add_nonneg (add_nonneg hA0 hE.1) hR.1
  · calc toneCfg.w_intonation * intonation_subscore i toneCfg
        + optTerm toneCfg.w_energy (energy_subscore (e.getD ⟨none, none, none⟩) toneCfg)
        + optTerm toneCfg.w_rhythm (rhythm_subscore (r.getD ⟨none, none, none⟩) toneCfg)
        ≤ 2/5 + 3/10 + 3/10 :=
      add_le_add (add_le_add hA1 (hwe ▸ hE.2)) (hwr ▸ hR.2)
    _ = 1 := by norm_num

theorem tone_score_eq (i : IntonSummary) (e : Option EnergySummary)
    (r : Option RhythmSummary) (cfg : ToneCfg) :
    (compute_tone_fixed i e r cfg).tone_score = pyRound (100 * tone01 i e r cfg) := rfl

theorem compute_tone_bounds (i : IntonSummary) (e : Option EnergySummary)
    (r : Option RhythmSummary) :
    0 ≤ (compute_tone_fixed i e r toneCfg).tone_score ∧
    (compute_tone_fixed i e r toneCfg).tone_score ≤ 100 := by
  rw [tone_score_eq]
  obtain ⟨h0, h1⟩ := tone01_bounds i e r
  constructor
  · exact int_le_pyRound _ 0 (by push_cast; linarith)
  · exact pyRound_le_int _ 100 (by push_cast; linarith)

theorem payload_total_eq (tr : List TremorRow) (sp : List SpRow) (tone : ToneResult) :
    (build_payload_from_structures tr sp tone defaultConfig).total_score =
      clamp_int ((1/4 : ℚ) * ((score_tremor_struct tr defaultConfig).2.1 : ℚ)
        + (1/4 : ℚ) * ((score_pause_struct sp defaultConfig).2.1 : ℚ)
        + (1/4 : ℚ) * (tone.tone_score : ℚ)
        + (1/4 : ℚ) * ((score_speed_struct sp defaultConfig).2.1 : ℚ)) 0 100 := rfl

theorem payload_metrics_eq (tr : List TremorRow) (sp : List SpRow) (tone : ToneResult) :
    (build_payload_from_structures tr sp tone defaultConfig).tremor_metric =
      (score_tremor_struct tr defaultConfig).2.1 ∧
    (build_payload_from_structures tr sp tone defaultConfig).pause_metric =
      (score_pause_struct sp defaultConfig).2.1 ∧
    (build_payload_from_structures tr sp tone defaultConfig).speed_metric =
      (score_speed_struct sp defaultConfig).2.1 ∧
    (build_payload_from_structures tr sp tone defaultConfig).tone_metric =
      min 100 (max 0 tone.tone_score) := ⟨rfl, rfl, rfl, rfl⟩

/-- C1: for every tremor timeline, speed/pause timeline and
    pipeline-produced tone result, build_payload_from_structures (at the
    default configuration) returns a total_score in [0,100] and each of the
    four metric scores in [0,100], and the total equals the fixed weighted
    sum 0.25*tremor + 0.25*pause + 0.25*tone + 0.25*speed rounded and
    clamped to [0,100]. -/
theorem C1_total_is_clamped_weighted_sum (tr : List TremorRow) (sp : List SpRow)
    (i : IntonSummary) (e : Option EnergySummary) (r : Option RhythmSummary) :
    (build_payload_from_structures tr sp (compute_tone_fixed i e r toneCfg)
        defaultConfig).total_score =
      clamp_int ((1/4 : ℚ) * ((score_tremor_struct tr defaultConfig).2.1 : ℚ)
        + (1/4 : ℚ) * ((score_pause_struct sp defaultConfig).2.1 : ℚ)
        + (1/4 : ℚ) * (((compute_tone_fixed i e r toneCfg).tone_score : ℚ))
        + (1/4 : ℚ) * ((score_speed_struct sp defaultConfig).2.1 : ℚ)) 0 100 ∧
    (0 ≤ (build_payload_from_structures tr sp (compute_tone_fixed i e r toneCfg)
        defaultConfig).total_score ∧
     (build_payload_from_structures tr sp (compute_tone_fixed i e r toneCfg)
        defaultConfig).total_score ≤ 100) ∧
    (0 ≤ (score_tremor_struct tr defaultConfig).2.1 ∧
     (score_tremor_struct tr defaultConfig).2.1 ≤ 100) ∧
    (0 ≤ (score_pause_struct sp defaultConfig).2.1 ∧
     (score_pause_struct sp defaultConfig).2.1 ≤ 100) ∧
    (0 ≤ (compute_tone_fixed i e r toneCfg).tone_score ∧
     (compute_tone_fixed i e r toneCfg).tone_score ≤ 100) ∧
    (0 ≤ (score_speed_struct sp defaultConfig).2.1 ∧
     (score_speed_struct sp defaultConfig).2.1 ≤ 100) := by
  refine ⟨payload_total_eq tr sp _, ?_, ?_, ?_, compute_tone_bounds i e r, ?_⟩
  · rw [payload_total_eq tr sp _]
    exact ⟨clamp_int_lb _ 0 100, clamp_int_ub _ 0 100 (by norm_num)⟩
  · rcases score_tremor_cases tr with h | ⟨h1, h2⟩ <;> omega
  · rcases score_pause_cases sp defaultConfig with h | h | h | h | h <;> omega
  · rcases score_speed_cases sp defaultConfig with h | h | h | h | h <;> omega

/-- C10: the structured scoring path caps the tremor metric at 90 (with
    floor 40 whenever usable timeline data exists, the score being 0
    exactly in the no-data fallback), the pause metric at 85 and the speed
    metric at 88, so with the pipeline tone score (at most 100) the
    payload's total_score never exceeds 91 and a perfect 100 is unreachable. -/
theorem C10_subscore_caps_total_below_92 (tr : List TremorRow) (sp : List SpRow)
    (i : IntonSummary) (e : Option EnergySummary) (r : Option RhythmSummary) :
    ((score_tremor_struct tr defaultConfig).2.1 = 0 ∨
      40 ≤ (score_tremor_struct tr defaultConfig).2.1) ∧
    (score_tremor_struct tr defaultConfig).2.1 ≤ 90 ∧
    (score_pause_struct sp defaultConfig).2.1 ≤ 85 ∧
    (score_speed_struct sp defaultConfig).2.1 ≤ 88 ∧
    (build_payload_from_structures tr sp (compute_tone_fixed i e r toneCfg)
        defaultConfig).total_score ≤ 91 := by
  have ht := score_tremor_cases tr
  have hp := score_pause_cases sp defaultConfig
  have hs := score_speed_cases sp defaultConfig
  have htone := compute_tone_bounds i e r
  refine ⟨?_, ?_, ?_, ?_, ?_⟩
  · rcases ht with h | ⟨h1, h2⟩
    · exact Or.inl h
    · exact Or.inr h1
  · rcases ht with h | ⟨h1, h2⟩ <;> omega
  · rcases hp with h | h | h | h | h <;> omega
  · rcases hs with h | h | h | h | h <;> omega
  · rw [payload_total_eq tr sp _]
    have ht90 : ((score_tremor_struct tr defaultConfig).2.1 : ℚ) ≤ 90 := by
      rcases ht with h | ⟨h1, h2⟩ <;> exact_mod_cast (by omega : (score_tremor_struct tr defaultConfig).2.1 ≤ 90)
    have hp85 : ((score_pause_struct sp defaultConfig).2.1 : ℚ) ≤ 85 := by
      exact_mod_cast (by omega : (score_pause_struct sp defaultConfig).2.1 ≤ 85)
    have hs88 : ((score_speed_struct sp defaultConfig).2.1 : ℚ) ≤ 88 := by
      exact_mod_cast (by omega : (score_speed_struct sp defaultConfig).2.1 ≤ 88)
    have htone100 : (((compute_tone_fixed i e r toneCfg).tone_score : ℤ) : ℚ) ≤ 100 := by
      exact_mod_cast htone.2
    apply clamp_int_le _ 91 (by norm_num)
    push_cast
    linarith

/-- C5 counterexample: an intonation summary with pitch range and pitch
    variability both 0 (under the monotone-guard floors 3.2 and 1.2) still
    yields tone_score 74 when energy and rhythm are in-band — the overall
    tone score is not capped at the guard cap (0.50, i.e. 50 points). -/
theorem C5_counterexample :
    exampleInton.f0_range_st.getD 0 < 16/5 ∧ exampleInton.pitch_var_st.getD 0 < 6/5 ∧
    (compute_tone_fixed exampleInton (some exampleEnergy) (some exampleRhythm)
        toneCfg).tone_score = 74 ∧
    50 < (compute_tone_fixed exampleInton (some exampleEnergy) (some exampleRhythm)
        toneCfg).tone_score := by
  set_option maxRecDepth 4000 in with_unfolding_all decide

/-- C5 amended: when both pitch range and pitch variability fall below the
    monotone-guard floors, the intonation subscore is capped at the guard
    cap 0.50; the overall tone score is bounded only through that term and
    can reach up to 80 = round(100*(0.4*0.5 + 0.3 + 0.3)). -/
theorem C5_guard_caps_intonation_subscore (i : IntonSummary) (e : Option EnergySummary)
    (r : Option RhythmSummary) (h1 : i.f0_range_st.getD 0 < 16/5)
    (h2 : i.pitch_var_st.getD 0 < 6/5) :
    intonation_subscore i toneCfg ≤ 1/2 ∧
    (compute_tone_fixed i e r toneCfg).tone_score ≤ 80 := by
  have hcap : intonation_subscore i toneCfg ≤ 1/2 := by
    unfold intonation_subscore
    dsimp only
    rw [if_pos ⟨h1, h2⟩]
    exact max_le (by norm_num) (le_trans (min_le_right _ _) (min_le_right _ _))
  refine ⟨hcap, ?_⟩
  rw [tone_score_eq]
  have hsi0 := (intonation_subscore_bounds i toneCfg).1
  have hwi : toneCfg.w_intonation = 2/5 := rfl
  have hwe : toneCfg.w_energy = 3/10 := rfl
  have hwr : toneCfg.w_rhythm = 3/10 := rfl
  have hE := optTerm_bounds toneCfg.w_energy (by rw [hwe]; norm_num)
    (energy_subscore (e.getD ⟨none, none, none⟩) toneCfg)
    (fun v hv => energy_subscore_bounds _ _ v hv)
  have hR := optTerm_bounds toneCfg.w_rhythm (by rw [hwr]; norm_num)
    (rhythm_subscore (r.getD ⟨none, none, none⟩) toneCfg)
    (fun v hv => rhythm_subscore_bounds _ _ v hv)
  have hA : toneCfg.w_intonation * intonation_subscore i toneCfg ≤ 1/5 := by
    rw [hwi]
    calc (2/5 : ℚ) * intonation_subscore i toneCfg ≤ 2/5 * (1/2) :=
      mul_le_mul_of_nonneg_left hcap (by norm_num)
    _ = 1/5 := by norm_num
  have ht : tone01 i e r toneCfg ≤ 4/5 := by
    unfold tone01
    calc toneCfg.w_intonation * intonation_subscore i toneCfg
        + optTerm toneCfg.w_energy (energy_subscore (e.getD ⟨none, none, none⟩) toneCfg)
        + optTerm toneCfg.w_rhythm (rhythm_subscore (r.getD ⟨none, none, none⟩) toneCfg)
        ≤ 1/5 + 3/10 + 3/10 :=
      add_le_add (add_le_add hA (hwe ▸ hE.2)) (hwr ▸ hR.2)
    _ = 4/5 := by norm_num
  exact pyRound_le_int _ 80 (by push_cast; linarith)

/-- C5 witness: the amended bound applied to the concrete guarded summary. -/
theorem C5_guard_witness :
    intonation_subscore exampleInton toneCfg ≤ 1/2 ∧
    (compute_tone_fixed exampleInton (some exampleEnergy) (some exampleRhythm)
        toneCfg).tone_score ≤ 80 :=
  C5_guard_caps_intonation_subscore exampleInton (some exampleEnergy) (some exampleRhythm)
    (by norm_num [exampleInton]) (by norm_num [exampleInton])

theorem clip01_le_one (a : ℚ) : max 0 (min 1 a) ≤ 1 :=
  max_le (by norm_num) (min_le_left _ _)

theorem clip01_lt_one (a : ℚ) (ha : a < 1) (hpos : 0 < max 0 (min 1 a)) :
    max 0 (min 1 a) < 1 := by
  rw [min_eq_right (le_of_lt ha)] at hpos ⊢
  rcases le_or_lt a 0 with h | h
  · rw [max_eq_left h] at hpos
    exact absurd hpos (lt_irrefl 0)
  · rw [max_eq_right h.le]
    exact ha

theorem clip01_mono_strict (a b : ℚ) (hab : a < b) (hb : b ≤ 1) :
    max 0 (min 1 a) ≤ max 0 (min 1 b) ∧
    (0 < max 0 (min 1 a) → max 0 (min 1 a) < max 0 (min 1 b)) := by
  rw [min_eq_right (le_trans (le_of_lt hab) hb), min_eq_right hb]
  constructor
  · exact max_le_max (le_refl 0) (le_of_lt hab)
  · intro hpos
    rcases le_or_lt a 0 with h | h
    · rw [max_eq_left h] at hpos
      exact absurd hpos (lt_irrefl 0)
    · rw [max_eq_right h.le, max_eq_right (lt_trans h hab).le]
      exact hab

theorem band_score_inside (v lo hi : ℚ) (h1 : lo ≤ v) (h2 : v ≤ hi) :
    band_score (some v) lo hi = 1 := by
  simp only [band_score]
  rw [if_pos ⟨h1, h2⟩]

theorem band_score_below (v lo hi : ℚ) (h : v < lo) :
    band_score (some v) lo hi =
      max 0 (min 1 (1 - (lo - v) / max (hi - lo) (1/1000000))) := by
  simp only [band_score]
  rw [if_neg (fun hc => absurd hc.1 (not_le_of_lt h)), if_pos h]

theorem band_score_above (v lo hi : ℚ) (h : hi < v) (hlohi : lo ≤ hi) :
    band_score (some v) lo hi =
      max 0 (min 1 (1 - (v - hi) / max (hi - lo) (1/1000000))) := by
  simp only [band_score]
  rw [if_neg (fun hc => absurd hc.2 (not_le_of_lt h)),
    if_neg (not_lt_of_le (le_trans hlohi (le_of_lt h)))]

/-- C8 counterexample: for the pause ratio target band (0.15, 0.35), the
    inputs 0.75 and 0.95 are both outside the band, 0.95 is further from the
    upper edge than 0.75, yet both score 0 (the clamp to [0,1] makes the
    score constant beyond one band-width) — the score does not strictly
    decrease with distance from the band edge. -/
theorem C8_counterexample :
    pause_band.1 < pause_band.2 ∧ pause_band.2 < 3/4 ∧ (3/4 : ℚ) < 19/20 ∧
    band_score (some (3/4)) pause_band.1 pause_band.2 = 0 ∧
    band_score (some (19/20)) pause_band.1 pause_band.2 = 0 ∧
    ¬ band_score (some (19/20)) pause_band.1 pause_band.2 <
        band_score (some (3/4)) pause_band.1 pause_band.2 := by
  with_unfolding_all decide

/-- C8 amended: band_score attains the maximum 1 at both band edges, and
    outside the band it is weakly decreasing in the distance from the nearer
    edge, strictly so while the score is still positive (it is constant 0
    once the distance exceeds one clamped band width). -/
theorem C8_band_score_monotone (lo hi : ℚ) (hlohi : lo < hi) :
    band_score (some lo) lo hi = 1 ∧ band_score (some hi) lo hi = 1 ∧
    (∀ x y : ℚ, x ≤ lo → y < x →
      band_score (some y) lo hi ≤ band_score (some x) lo hi ∧
      (0 < band_score (some y) lo hi →
        band_score (some y) lo hi < band_score (some x) lo hi)) ∧
    (∀ x y : ℚ, hi ≤ x → x < y →
      band_score (some y) lo hi ≤ band_score (some x) lo hi ∧
      (0 < band_score (some y) lo hi →
        band_score (some y) lo hi < band_score (some x) lo hi)) := by
  have hspan : 0 < max (hi - lo) (1/1000000) :=
    lt_max_of_lt_left (by linarith)
  refine ⟨band_score_inside lo lo hi (le_refl lo) (le_of_lt hlohi),
    band_score_inside hi lo hi (le_of_lt hlohi) (le_refl hi), ?_, ?_⟩
  · intro x y hx hyx
    rcases eq_or_lt_of_le hx with rfl | hxlo
    · rw [band_score_inside x x hi (le_refl x) (le_of_lt hlohi),
        band_score_below y x hi hyx]
      refine ⟨clip01_le_one _, fun hpos => clip01_lt_one _ ?_ hpos⟩
      have : 0 < (x - y) / max (hi - x) (1/1000000) :=
        div_pos (by linarith) (lt_max_of_lt_left (by linarith))
      linarith
    · rw [band_score_below x lo hi hxlo, band_score_below y lo hi (lt_trans hyx hxlo)]
      apply clip01_mono_strict
      · have hlt : (lo - x) / max (hi - lo) (1/1000000) <
            (lo - y) / max (hi - lo) (1/1000000) :=
          (div_lt_div_iff_of_pos_right hspan).mpr (by linarith)
        linarith
      · have : 0 ≤ (lo - x) / max (hi - lo) (1/1000000) :=
          div_nonneg (by linarith) (le_of_lt hspan)
        linarith
  · intro x y hx hxy
    rcases eq_or_lt_of_le hx with rfl | hxhi
    · rw [band_score_inside hi lo hi (le_of_lt hlohi) (le_refl hi),
        band_score_above y lo hi hxy (le_of_lt hlohi)]
      refine ⟨clip01_le_one _, fun hpos => clip01_lt_one _ ?_ hpos⟩
      have : 0 < (y - hi) / max (hi - lo) (1/1000000) :=
        div_pos (by linarith) hspan
      linarith
    · rw [band_score_above x lo hi hxhi (le_of_lt hlohi),
        band_score_above y lo hi (lt_trans hxhi hxy) (le_of_lt hlohi)]
      apply clip01_mono_strict
      · have hlt : (x - hi) / max (hi - lo) (1/1000000) <
            (y - hi) / max (hi - lo) (1/1000000) :=
          (div_lt_div_iff_of_pos_right hspan).mpr (by linarith)
        linarith
      · have : 0 ≤ (x - hi) / max (hi - lo) (1/1000000) :=
          div_nonneg (by linarith) (le_of_lt hspan)
        linarith

/-- C8 witness: the amended statement applied to the pause ratio band. -/
theorem C8_band_score_witness :
    band_score (some (3/20)) (3/20) (7/20) = 1 ∧
    band_score (some (7/20)) (3/20) (7/20) = 1 :=
  ⟨(C8_band_score_monotone (3/20) (7/20) (by norm_num)).1,
   (C8_band_score_monotone (3/20) (7/20) (by norm_num)).2.1⟩

/-- C6 counterexample: on an empty timeline the tremor and speed scorers do
    return score 0 with the explicit insufficient-data level (정보부족), but
    the pause scorer returns its neutral score 80 with level 보통 (ordinary)
    — the insufficient-data marker sits in its status field, not in its
    level, so the pause scorer does not return the insufficient-data level. -/
theorem C6_counterexample :
    score_tremor_struct [] defaultConfig = (none, 0, "정보부족") ∧
    score_speed_struct [] defaultConfig = (none, 0, "정보부족") ∧
    score_pause_struct [] defaultConfig = (⟨"정보부족", none⟩, 80, "보통") ∧
    "보통" ≠ "정보부족" := by
  refine ⟨rfl, rfl, rfl, ?_⟩
  simp

/-- C6 amended: on an empty or field-less timeline every structured scorer
    falls back without raising: tremor and speed return score 0 with level
    정보부족 (insufficient data), while pause returns its neutral score 80
    with level 보통 and an insufficient-data status field. -/
theorem C6_degenerate_fallbacks (cfg : Config) (tr : List TremorRow) (sp sp2 : List SpRow)
    (h1 : ∀ r ∈ tr, r.tremor_score = none)
    (h2 : ∀ r ∈ sp, r.speaking_rate_sps = none)
    (h3 : ∀ r ∈ sp2, r.pause_frac = none) :
    score_tremor_struct tr cfg = (none, 0, "정보부족") ∧
    score_speed_struct sp cfg = (none, 0, "정보부족") ∧
    score_pause_struct sp2 cfg = (⟨"정보부족", none⟩, 80, "보통") := by
  refine ⟨?_, ?_, ?_⟩
  · have hfm : List.filterMap (fun r => r.tremor_score) tr = [] :=
      List.filterMap_eq_nil_iff.mpr h1
    by_cases htr : tr = []
    · simp [score_tremor_struct, htr]
    · simp only [score_tremor_struct]
      rw [if_neg htr, if_pos hfm]
  · have hfm : List.filterMap (fun r => r.speaking_rate_sps) sp = [] :=
      List.filterMap_eq_nil_iff.mpr h2
    by_cases hsp : sp = []
    · simp [score_speed_struct, hsp]
    · simp only [score_speed_struct]
      rw [if_neg hsp, if_pos hfm]
  · have hfm : List.filterMap (fun r => r.pause_frac) sp2 = [] :=
      List.filterMap_eq_nil_iff.mpr h3
    by_cases hsp : sp2 = []
    · simp [score_pause_struct, hsp]
    · simp only [score_pause_struct]
      rw [if_neg hsp, if_pos hfm]

/-- C6 witness: the fallback equalities at the empty timelines. -/
theorem C6_degenerate_witness :
    score_tremor_struct [] defaultConfig = (none, 0, "정보부족") ∧
    score_speed_struct [] defaultConfig = (none, 0, "정보부족") ∧
    score_pause_struct [] defaultConfig = (⟨"정보부족", none⟩, 80, "보통") :=
  C6_degenerate_fallbacks defaultConfig [] [] [] (by simp) (by simp) (by simp)

theorem swGo_mem (dur win hop : ℚ) : ∀ (fuel : Nat) (t : ℚ),
    ∀ w ∈ swGo dur win hop fuel t,
      w.2 = min dur (w.1 + win) ∧ w.1 < dur - 1/1000000000 := by
  intro fuel
  induction fuel with
  | zero => intro t w hw; simp [swGo] at hw
  | succ n ih =>
    intro t w hw
    simp only [swGo] at hw
    split_ifs at hw with h
    · rcases List.mem_cons.mp hw with rfl | hw2
      · exact ⟨rfl, h⟩
      · exact ih (t + hop) w hw2
    · simp at hw

theorem swGo_head (dur win hop : ℚ) (fuel : Nat) (t : ℚ) (w : ℚ × ℚ)
    (hw : (swGo dur win hop fuel t).head? = some w) : w.1 = t := by
  cases fuel with
  | zero => simp [swGo] at hw
  | succ n =>
    simp only [swGo] at hw
    split_ifs at hw with h
    · rw [List.head?_cons, Option.some.injEq] at hw
      rw [← hw]
    · simp at hw

theorem swGo_chain (dur win hop : ℚ) : ∀ (fuel : Nat) (t : ℚ),
    List.Chain' (fun a b : ℚ × ℚ => b.1 = a.1 + hop) (swGo dur win hop fuel t) := by
  intro fuel
  induction fuel with
  | zero => intro t; simp [swGo]
  | succ n ih =>
    intro t
    simp only [swGo]
    split_ifs with h
    · rw [List.chain'_cons']
      refine ⟨?_, ih (t + hop)⟩
      intro y hy
      have hh : (swGo dur win hop n (t + hop)).head? = some y := hy
      rw [swGo_head dur win hop n (t + hop) y hh]
    · simp

/-- C7 counterexample: for dur = 1, win = 0.5, hop = 0.2 the generated
    windows are as listed; the fourth of the five windows, (0.6, 1.0), is
    shorter than win (0.4 < 0.5) yet is not the terminal window. -/
theorem C7_counterexample :
    sliding_windows 1 (1/2) (1/5) =
      [(0, 1/2), (1/5, 7/10), (2/5, 9/10), (3/5, 1), (4/5, 1)] ∧
    ((1 : ℚ) - 3/5 < 1/2) := by
  with_unfolding_all decide

/-- C7 amended: for dur, win, hop > 0, every window satisfies end > start and
    consecutive windows advance by exactly hop; a window shorter than win is
    one clamped at the end of the recording (its end equals dur) — when
    hop < win several trailing windows may be short, not only the last one. -/
theorem C7_window_invariants (dur win hop : ℚ) (_hd : 0 < dur) (hw : 0 < win)
    (hh : 0 < hop) :
    (∀ w ∈ sliding_windows dur win hop,
      w.1 < w.2 ∧ (w.2 - w.1 < win → w.2 = dur)) ∧
    List.Chain' (fun a b : ℚ × ℚ => b.1 = a.1 + hop) (sliding_windows dur win hop) := by
  unfold sliding_windows
  rw [if_pos hh]
  constructor
  · intro w hw'
    obtain ⟨he, hlt⟩ := swGo_mem dur win hop (swFuel dur hop) 0 w hw'
    have hwd : w.1 < dur := by
      have : (0 : ℚ) < 1/1000000000 := by norm_num
      linarith
    constructor
    · rw [he]
      exact lt_min hwd (by linarith)
    · intro hshort
      rw [he] at hshort ⊢
      rcases min_choice dur (w.1 + win) with hmin | hmin
      · rw [hmin]
      · rw [hmin] at hshort
        linarith
  · exact swGo_chain dur win hop (swFuel dur hop) 0

/-- C7 witness: the exact-hop chain at the counterexample configuration. -/
theorem C7_window_witness :
    List.Chain' (fun a b : ℚ × ℚ => b.1 = a.1 + 1/5) (sliding_windows 1 (1/2) (1/5)) :=
  (C7_window_invariants 1 (1/2) (1/5) (by norm_num) (by norm_num) (by norm_num)).2

/-- C9 counterexample: a window with no periodic voiced signal carries
    undefined (NaN) jitter, shimmer and HNR from the Praat calls; the
    normalization loop applies no defaulting to the configured reference
    thresholds, and the window's tremor score is NaN (none) rather than a
    defined value whose jitter/shimmer/HNR contribution is ≈ 0. -/
theorem C9_counterexample : tremor_score_row ⟨none, none, none, 0, 0⟩ 1 1 = none := by
  with_unfolding_all decide

/-- C9 amended: the per-window normalization applies no defaulting: whenever
    the jitter measure of a window is undefined (NaN), the window's tremor
    score is NaN regardless of the other measures and of the references. -/
theorem C9_nan_propagates (shm hnr : Option ℚ) (fm am fr ar : ℚ) :
    tremor_score_row ⟨none, shm, hnr, fm, am⟩ fr ar = none := by
  cases shm <;> cases hnr <;> rfl

theorem scanRuns_min_dur (z_hi z_lo min_dur : ℚ) (minc : Nat) :
    ∀ (pairs : List (TRow × Option ℚ)) (st : RState),
      ∀ s ∈ scanRuns z_hi z_lo min_dur minc pairs st, min_dur ≤ s.stop - s.start := by
  intro pairs
  induction pairs with
  | nil =>
    intro st s hs
    simp only [scanRuns] at hs
    split_ifs at hs with h1 h2
    · rw [List.mem_singleton] at hs
      subst hs
      exact h2
    · simp at hs
    · simp at hs
  | cons p rest ih =>
    intro st s hs
    obtain ⟨r, zo⟩ := p
    cases zo with
    | none =>
      simp only [scanRuns] at hs
      rw [List.mem_append] at hs
      rcases hs with hs | hs
      · split_ifs at hs with h
        · rw [List.mem_singleton] at hs
          subst hs
          exact h.2
        · simp at hs
      · exact ih _ s hs
    | some z =>
      simp only [scanRuns] at hs
      split_ifs at hs with h1 h2 h3
      · rw [List.mem_append] at hs
        rcases hs with hs | hs
        · rw [List.mem_singleton] at hs
          subst hs
          exact h3
        · exact ih _ s hs
      · rw [List.nil_append] at hs
        exact ih _ s hs
      all_goals exact ih _ s hs

theorem rawTremorRuns_min_dur (timeline : List TRow)
    (win_sec z_hi z_lo min_dur : ℚ) (minc : Nat) :
    ∀ s ∈ rawTremorRuns timeline win_sec z_hi z_lo min_dur minc,
      min_dur ≤ s.stop - s.start := by
  intro s hs
  exact scanRuns_min_dur z_hi z_lo min_dur minc _ _ s hs

/-- C3 counterexample: at the default Z_PARAMS (win 4 s, z_hi 1.10, z_lo 0.6,
    min_dur 0.6 s, merge_gap 0.3 s, 3 consecutive frames), the example
    timeline holds two accepted qualifying runs — rows 6-8 and rows 10-12,
    each with z-ratio 2 ≥ 1.10 for exactly the 3 required consecutive
    windows and each closed by an exit window with z-ratio 0.1 < 0.6 — each
    lasting 0.57 s < 0.6 s, separated by a 0.19 s ≤ 0.3 s gap and with a
    merged extent of 1.33 s ≥ 0.6 s; tremor_z_segments nevertheless returns
    no event, because the runs are discarded before merging, where the claim
    predicts one retained event. -/
theorem C3_counterexample :
    (zSeries (sortRows exampleC3) 4).getD 6 none = some 2 ∧
    (zSeries (sortRows exampleC3) 4).getD 7 none = some 2 ∧
    (zSeries (sortRows exampleC3) 4).getD 8 none = some 2 ∧
    (zSeries (sortRows exampleC3) 4).getD 9 none = some (1/10) ∧
    (zSeries (sortRows exampleC3) 4).getD 10 none = some 2 ∧
    (zSeries (sortRows exampleC3) 4).getD 11 none = some 2 ∧
    (zSeries (sortRows exampleC3) 4).getD 12 none = some 2 ∧
    (zSeries (sortRows exampleC3) 4).getD 13 none = some (1/10) ∧
    (exampleC3.getD 8 ⟨0, 0, 0⟩).stop - (exampleC3.getD 6 ⟨0, 0, 0⟩).start < 3/5 ∧
    (exampleC3.getD 12 ⟨0, 0, 0⟩).stop - (exampleC3.getD 10 ⟨0, 0, 0⟩).start < 3/5 ∧
    (exampleC3.getD 10 ⟨0, 0, 0⟩).start - (exampleC3.getD 8 ⟨0, 0, 0⟩).stop ≤ 3/10 ∧
    3/5 ≤ (exampleC3.getD 12 ⟨0, 0, 0⟩).stop - (exampleC3.getD 6 ⟨0, 0, 0⟩).start ∧
    tremor_z_segments exampleC3 4 (11/10) (3/5) (3/5) (3/10) 3 = [] := by
  set_option maxRecDepth 8000 in with_unfolding_all decide

/-- C3 amended: the minimum-duration filter of tremor_z_segments runs when a
    raw run closes, BEFORE any merging: every pre-merge run already lasts at
    least min_dur, and the returned segments are the merge (within
    merge_gap) of exactly those surviving runs; hence two qualifying runs
    each shorter than 0.6 s are discarded and produce no event even when
    their gap is at most 0.3 s and their merged extent would reach 0.6 s. -/
theorem C3_min_dur_filter_precedes_merge (timeline : List TRow)
    (win_sec z_hi z_lo min_dur merge_gap : ℚ) (minc : Nat) :
    (∀ s ∈ rawTremorRuns timeline win_sec z_hi z_lo min_dur minc,
      min_dur ≤ s.stop - s.start) ∧
    tremor_z_segments timeline win_sec z_hi z_lo min_dur merge_gap minc =
      (if (sortRows timeline).length < 3 then []
       else mergeSegs merge_gap (rawTremorRuns timeline win_sec z_hi z_lo min_dur minc)) :=
  ⟨rawTremorRuns_min_dur timeline win_sec z_hi z_lo min_dur minc, rfl⟩

/-- C3 witness: the single raw run of the witness timeline meets min_dur. -/
theorem C3_min_dur_witness :
    (3 : ℚ)/5 ≤ (⟨3, 9/2, 2⟩ : Seg).stop - (⟨3, 9/2, 2⟩ : Seg).start :=
  (C3_min_dur_filter_precedes_merge exampleC3b 4 (11/10) (3/5) (3/5) (3/10) 3).1
    ⟨3, 9/2, 2⟩ (by set_option maxRecDepth 8000 in with_unfolding_all decide)

theorem spansGo_flagged (flag : MRow → Bool) :
    ∀ (rows : List MRow) (cur : Option (ℚ × ℚ × List MRow)),
      (∀ c, cur = some c → c.2.2 ≠ [] ∧ ∀ r ∈ c.2.2, flag r = true) →
      ∀ g ∈ spansGo flag rows cur, g.2.2 ≠ [] ∧ ∀ r ∈ g.2.2, flag r = true := by
  intro rows
  induction rows with
  | nil =>
    intro cur hcur g hg
    cases cur with
    | none => simp [spansGo] at hg
    | some c =>
      simp only [spansGo, List.mem_singleton] at hg
      subst hg
      exact hcur _ rfl
  | cons r rest ih =>
    intro cur hcur g hg
    cases cur with
    | none =>
      simp only [spansGo] at hg
      split_ifs at hg with hf
      · refine ih _ ?_ g hg
        intro c hc
        rw [Option.some.injEq] at hc
        subst hc
        refine ⟨by simp, ?_⟩
        intro r' hr'
        rw [List.mem_singleton] at hr'
        subst hr'
        exact hf
      · exact ih _ (fun c hc => Option.noConfusion hc) g hg
    | some c =>
      simp only [spansGo] at hg
      split_ifs at hg with hf
      · refine ih _ ?_ g hg
        intro c' hc'
        rw [Option.some.injEq] at hc'
        subst hc'
        obtain ⟨hne, hall⟩ := hcur c rfl
        refine ⟨by simp, ?_⟩
        intro r' hr'
        rcases List.mem_append.mp hr' with h | h
        · exact hall r' h
        · rw [List.mem_singleton] at h
          subst h
          exact hf
      · rcases List.mem_cons.mp hg with rfl | hg2
        · exact hcur _ rfl
        · exact ih none (fun c' hc' => Option.noConfusion hc') g hg2

theorem collectGo_min_hold (enter : MRow → Bool) (exitP : ℚ → Bool) (rate : MRow → ℚ)
    (min_hold : ℚ) : ∀ (rows : List MRow) (cur : Option (ℚ × ℚ)),
      ∀ s ∈ collectGo enter exitP rate min_hold rows cur, min_hold ≤ s.2 - s.1 := by
  intro rows
  induction rows with
  | nil =>
    intro cur s hs
    cases cur with
    | none => simp [collectGo] at hs
    | some c =>
      simp only [collectGo] at hs
      split_ifs at hs with h
      · rw [List.mem_singleton] at hs
        subst hs
        exact h
      · simp at hs
  | cons r rest ih =>
    intro cur s hs
    cases cur with
    | none =>
      simp only [collectGo] at hs
      split_ifs at hs <;> exact ih _ s hs
    | some c =>
      simp only [collectGo] at hs
      split_ifs at hs with h1 h2
      · rw [List.mem_append] at hs
        rcases hs with hs | hs
        · rw [List.mem_singleton] at hs
          subst hs
          exact h2
        · exact ih _ s hs
      · rw [List.nil_append] at hs
        exact ih _ s hs
      · exact ih _ s hs

/-- C4 counterexample: two flagged windows separated by an unflagged one
    yield two pause_high events of 0.5 s each — shorter than the 1.0 s
    minimum hold the speed collector enforces — and they stay unmerged even
    though their gap (negative, the windows overlap) is within the 0.5 s
    merge gap; pause segmentation therefore does not apply the speed
    run-length and merge-gap treatment claimed. -/
theorem C4_counterexample :
    pause_high_events exampleC4 =
      [⟨0, 1/2, 4, 4, 1/2⟩, ⟨2/5, 9/10, 4, 4, 1/2⟩] ∧
    ((1/2 : ℚ) - 0 < speedParams.min_hold) ∧
    ((9/10 : ℚ) - 2/5 < speedParams.min_hold) ∧
    ((2/5 : ℚ) - 1/2 ≤ speedParams.merge_gap) := by
  with_unfolding_all decide

/-- C4 amended: pause segmentation applies the single threshold
    pause_ratio > 0.35 and groups maximal runs of consecutively flagged
    windows into spans, with no minimum-hold and no merge-gap treatment —
    unlike the speed collector, whose every accepted run lasts at least
    min_hold — and of the two pause directions only pause_high is surfaced:
    the grouped pause_low output is the constant empty list. -/
theorem C4_pause_single_threshold_no_hold :
    pause_low_events = [] ∧
    (∀ rows : List MRow, ∀ g ∈ spans flag_pause_high rows,
      g.2.2 ≠ [] ∧ ∀ r ∈ g.2.2, flag_pause_high r = true) ∧
    (∀ (enter : MRow → Bool) (exitP : ℚ → Bool) (rate : MRow → ℚ) (mh : ℚ)
      (rows : List MRow),
      ∀ s ∈ collectGo enter exitP rate mh rows none, mh ≤ s.2 - s.1) := by
  refine ⟨rfl, ?_, ?_⟩
  · intro rows g hg
    exact spansGo_flagged flag_pause_high rows none (fun c hc => Option.noConfusion hc) g hg
  · intro e x rt mh rows s hs
    exact collectGo_min_hold e x rt mh rows none s hs

/-- C4 witness: the first grouped pause_high span of the example consists of
    flagged rows only. -/
theorem C4_pause_flag_witness :
    flag_pause_high ⟨0, 1/2, 4, 4, 1/2, 1/2⟩ = true :=
  (C4_pause_single_threshold_no_hold.2.1 exampleC4
    (0, 1/2, [⟨0, 1/2, 4, 4, 1/2, 1/2⟩]) (by with_unfolding_all decide)).2
    ⟨0, 1/2, 4, 4, 1/2, 1/2⟩ (by with_unfolding_all decide)
